import Mathlib

/-!
Shallow embedding of the Cp216-M2 ARM-subset simulator:
`src/arm_decoder.py` (instruction decoding), `src/arm_executor.py`
(CPU state, condition codes, shifter, execution) and `src/memory.py`
(set-associative cache with LRU replacement and write-back tracking).
Machine words are modelled as `Nat` with explicit masking by `2^32`;
Python's `bytearray` memory is a `List Nat` of byte values; the
caches' mutable state is passed explicitly.
-/

set_option maxHeartbeats 1000000
set_option maxRecDepth 100000

/-- Instruction kinds produced by `ARMInstruction.decode`
(the string constants assigned to `instruction_type`). -/
inductive InstrType where
  | MOV | ADD | SUB | CMP | AND | ORR | EOR | MUL | MLA
  | LDR | STR | LSL | LSR | ASR | ROR | B | BL
  | UNKNOWN | UNKNOWN_DATA_PROCESSING_IMM | UNKNOWN_DATA_PROCESSING_REG
deriving DecidableEq, Repr

/-- The kind-specific operand bag `self.operands`: each Python dict key
becomes an `Option Nat` field (`none` = key absent). -/
structure Operands where
  rd : Option Nat := none
  rn : Option Nat := none
  rm : Option Nat := none
  rs : Option Nat := none
  operand2 : Option Nat := none
  shift_type : Option Nat := none
  shift_amount : Option Nat := none
  offset : Option Nat := none
deriving DecidableEq, Repr

/-- A decoded instruction: the fields of `ARMInstruction` that the
executor consumes. -/
structure ARMInstruction where
  binary_word : Nat
  condition_code : Nat
  instruction_type : InstrType
  set_flags : Bool
  operands : Operands
deriving DecidableEq, Repr

/-- Opcode-to-kind map shared by the immediate and register data-processing
paths of `decode` (CMP forces `set_flags = True`). Returns the kind and the
final `set_flags`. -/
def dp_opcode_map (opcode : Nat) (set_flags : Bool) (unknown : InstrType) :
    InstrType × Bool :=
  if opcode = 4 then (.ADD, set_flags)
  else if opcode = 2 then (.SUB, set_flags)
  else if opcode = 13 then (.MOV, set_flags)
  else if opcode = 10 then (.CMP, true)
  else if opcode = 0 then (.AND, set_flags)
  else if opcode = 12 then (.ORR, set_flags)
  else if opcode = 1 then (.EOR, set_flags)
  else (unknown, set_flags)

/-- Kind of a standalone shift keyed by the 2-bit `shift_type_bits`. -/
def shift_kind (shift_type_bits : Nat) : InstrType :=
  if shift_type_bits = 0 then .LSL
  else if shift_type_bits = 1 then .LSR
  else if shift_type_bits = 2 then .ASR
  else .ROR

/-- Translation of `ARMInstruction.decode` (src/arm_decoder.py, lines 13-175):
sequential dispatch over multiply, data-processing, load/store, branch. -/
def decode (w : Nat) : ARMInstruction :=
  let condition_code := (w >>> 28) &&& 0xF
  -- Check for Multiply (MUL/MLA): the source tests
  -- ((w >> 24) & 0xFF) >> 1 == 0 and ((w >> 4) & 0xF) == 0b1001.
  if ((w >>> 24) &&& 0xFF) >>> 1 = 0 ∧ (w >>> 4) &&& 0xF = 9 then
    let a_bit := (w >>> 21) &&& 1
    let set_flags := (w >>> 20) &&& 1 ≠ 0
    let rd := (w >>> 16) &&& 0xF
    let rm := w &&& 0xF
    let rs := (w >>> 8) &&& 0xF
    if a_bit = 0 then
      { binary_word := w, condition_code, instruction_type := .MUL, set_flags,
        operands := { rd := some rd, rm := some rm, rs := some rs } }
    else
      let rn := (w >>> 12) &&& 0xF
      { binary_word := w, condition_code, instruction_type := .MLA, set_flags,
        operands := { rd := some rd, rm := some rm, rs := some rs, rn := some rn } }
  else if (w >>> 26) &&& 3 = 0 then
    -- Data processing
    let set_flags := (w >>> 20) &&& 1 ≠ 0
    let opcode := (w >>> 21) &&& 0xF
    let rn := (w >>> 16) &&& 0xF
    let rd := (w >>> 12) &&& 0xF
    if (w >>> 25) &&& 1 ≠ 0 then
      -- Immediate operand: ROR of imm8 by 2*rotate_imm, exactly as the
      -- source writes it (the mask binds only to the left-shift summand).
      let rotate_imm := (w >>> 8) &&& 0xF
      let imm8 := w &&& 0xFF
      let operand2 :=
        (imm8 >>> (2 * rotate_imm)) ||| ((imm8 <<< (32 - 2 * rotate_imm)) &&& 0xFFFFFFFF)
      let ts := dp_opcode_map opcode set_flags .UNKNOWN_DATA_PROCESSING_IMM
      { binary_word := w, condition_code, instruction_type := ts.1, set_flags := ts.2,
        operands := { rd := some rd, rn := some rn, operand2 := some operand2 } }
    else
      let rm := w &&& 0xF
      let shift_type_bits := (w >>> 5) &&& 3
      if (w >>> 4) &&& 1 = 0 then
        -- Immediate shift amount
        let shift_amount := (w >>> 7) &&& 0x1F
        if rn = 0 ∧ opcode = 13 then
          { binary_word := w, condition_code,
            instruction_type := shift_kind shift_type_bits, set_flags,
            operands := { rd := some rd, rm := some rm, shift_amount := some shift_amount } }
        else
          let ts := dp_opcode_map opcode set_flags .UNKNOWN_DATA_PROCESSING_REG
          { binary_word := w, condition_code, instruction_type := ts.1, set_flags := ts.2,
            operands := { rd := some rd, rn := some rn, rm := some rm,
                          shift_amount := some shift_amount,
                          shift_type := some shift_type_bits } }
      else
        -- Register shift amount
        let rs := (w >>> 8) &&& 0xF
        if rn = 0 ∧ opcode = 13 then
          { binary_word := w, condition_code,
            instruction_type := shift_kind shift_type_bits, set_flags,
            operands := { rd := some rd, rm := some rm, rs := some rs } }
        else
          let ts := dp_opcode_map opcode set_flags .UNKNOWN_DATA_PROCESSING_REG
          { binary_word := w, condition_code, instruction_type := ts.1, set_flags := ts.2,
            operands := { rd := some rd, rn := some rn, rm := some rm, rs := some rs } }
  else if (w >>> 26) &&& 3 = 1 then
    -- Load/Store
    let l_bit := (w >>> 20) &&& 1
    let i_bit := (w >>> 25) &&& 1
    let rn := (w >>> 16) &&& 0xF
    let rd := (w >>> 12) &&& 0xF
    let ty := if l_bit ≠ 0 then InstrType.LDR else InstrType.STR
    if i_bit = 0 then
      let offset := w &&& 0xFFF
      { binary_word := w, condition_code, instruction_type := ty, set_flags := false,
        operands := { rd := some rd, rn := some rn, offset := some offset } }
    else
      let rm := w &&& 0xF
      let shift_type := (w >>> 5) &&& 3
      let shift_amount := (w >>> 7) &&& 0x1F
      { binary_word := w, condition_code, instruction_type := ty, set_flags := false,
        operands := { rd := some rd, rn := some rn, rm := some rm,
                      shift_type := some shift_type, shift_amount := some shift_amount } }
  else if (w >>> 25) &&& 7 = 5 then
    -- Branch
    let l_bit := (w >>> 24) &&& 1
    let offset := w &&& 0xFFFFFF
    let ty := if l_bit ≠ 0 then InstrType.BL else InstrType.B
    { binary_word := w, condition_code, instruction_type := ty, set_flags := false,
      operands := { offset := some offset } }
  else
    { binary_word := w, condition_code, instruction_type := .UNKNOWN,
      set_flags := false, operands := {} }

/-- CPSR status flags; the Python dict stores plain ints 0/1, so each
field is a `Nat`. -/
structure CPSR where
  n : Nat
  z : Nat
  c : Nat
  v : Nat
deriving DecidableEq, Repr

/-- CPU state of `ARMCPU`: 16 registers, flags, byte-addressable memory. -/
structure ARMCPU where
  registers : List Nat
  cpsr : CPSR
  memory : List Nat
deriving DecidableEq, Repr

/-- The `ARMCPU()` constructor: all registers zero, flags zero, 1024-byte
zeroed memory. -/
def ARMCPU.init : ARMCPU :=
  { registers := List.replicate 16 0,
    cpsr := { n := 0, z := 0, c := 0, v := 0 },
    memory := List.replicate 1024 0 }

/-- Translation of `ARMCPU._condition_passed` (src/arm_executor.py 11-42). -/
def ARMCPU.condition_passed (cpu : ARMCPU) (condition_code : Nat) : Bool :=
  if condition_code = 0 then cpu.cpsr.z == 1
  else if condition_code = 1 then cpu.cpsr.z == 0
  else if condition_code = 2 then cpu.cpsr.c == 1
  else if condition_code = 3 then cpu.cpsr.c == 0
  else if condition_code = 4 then cpu.cpsr.n == 1
  else if condition_code = 5 then cpu.cpsr.n == 0
  else if condition_code = 6 then cpu.cpsr.v == 1
  else if condition_code = 7 then cpu.cpsr.v == 0
  else if condition_code = 8 then cpu.cpsr.c == 1 && cpu.cpsr.z == 0
  else if condition_code = 9 then cpu.cpsr.c == 0 || cpu.cpsr.z == 1
  else if condition_code = 10 then cpu.cpsr.n == cpu.cpsr.v
  else if condition_code = 11 then cpu.cpsr.n != cpu.cpsr.v
  else if condition_code = 12 then cpu.cpsr.z == 0 && cpu.cpsr.n == cpu.cpsr.v
  else if condition_code = 13 then cpu.cpsr.z == 1 || cpu.cpsr.n != cpu.cpsr.v
  else true

/-- Python's `result & 0xFFFFFFFF` applied to a possibly negative int
(two's-complement semantics): reduce mod `2^32` into a `Nat`. -/
def int_mask32 (r : Int) : Nat := (r % (2 ^ 32 : Int)).toNat

/-- Translation of `ARMCPU._update_flags` (src/arm_executor.py 44-53).
`result` may be a negative Python int (the SUB/CMP path), hence `Int`. -/
def ARMCPU.update_flags (cpu : ARMCPU) (result : Int)
    (carry_out overflow : Option Bool) : ARMCPU :=
  let result_32 := int_mask32 result
  let f := cpu.cpsr
  let f := { f with n := if (result_32 >>> 31) &&& 1 ≠ 0 then 1 else 0,
                    z := if result_32 = 0 then 1 else 0 }
  let f := match carry_out with
    | some co => { f with c := if co then 1 else 0 }
    | none => f
  let f := match overflow with
    | some ov => { f with v := if ov then 1 else 0 }
    | none => f
  { cpu with cpsr := f }

/-- The shift dispatch of `_get_operand2` (src/arm_executor.py 74-116):
given the current carry, the value of Rm, the resolved shift amount and
the optional shift type, compute operand2 and the shifter carry-out.
Dead source branches (the LSR `sa == 0` self-assignment, the `sa > 0`
conditionals) are kept as written. -/
def operand2_shift (current_carry rm_value sa : Nat) (shift_type : Option Nat) : Nat × Nat :=
  if sa = 0 then (rm_value, current_carry)
  else if shift_type = some 0 then
    -- LSL
    if sa > 31 then (0, 0)
    else ((rm_value <<< sa) &&& 0xFFFFFFFF,
          if sa ≤ 32 then (rm_value >>> (32 - sa)) &&& 1 else 0)
  else if shift_type = some 1 then
    -- LSR
    if sa > 32 then (0, 0)
    else
      let sa := if sa = 0 then 32 else sa
      (rm_value >>> sa, if sa > 0 then (rm_value >>> (sa - 1)) &&& 1 else 0)
  else if shift_type = some 2 then
    -- ASR
    let sa := if sa > 31 then 32 else sa
    let sa := if sa = 0 then 32 else sa
    let result :=
      if rm_value &&& 0x80000000 ≠ 0 then
        (rm_value >>> sa) ||| (0xFFFFFFFF <<< (32 - sa))
      else rm_value >>> sa
    (result &&& 0xFFFFFFFF, if sa > 0 then (rm_value >>> (sa - 1)) &&& 1 else 0)
  else if shift_type = some 3 then
    -- ROR
    let sa := sa % 32
    if sa = 0 then (rm_value, current_carry)
    else
      let result := ((rm_value >>> sa) ||| (rm_value <<< (32 - sa))) &&& 0xFFFFFFFF
      (result, (result >>> 31) &&& 1)
  else (rm_value, current_carry)

/-- Translation of `ARMCPU._get_operand2` (src/arm_executor.py 55-116):
precomputed immediate, operand resolution, then the shift dispatch. -/
def ARMCPU.get_operand2 (cpu : ARMCPU) (i : ARMInstruction) : Nat × Nat :=
  match i.operands.operand2 with
  | some v => (v, cpu.cpsr.c)
  | none =>
    let rm_value := cpu.registers.getD (i.operands.rm.getD 0) 0
    let shift_type := i.operands.shift_type
    let current_carry := cpu.cpsr.c
    let sa? : Option Nat :=
      match i.operands.shift_amount with
      | some a => some a
      | none =>
        match i.operands.rs with
        | some r => some (cpu.registers.getD r 0 &&& 0xFF)
        | none => none
    match sa? with
    | none => (rm_value, current_carry)
    | some sa => operand2_shift current_carry rm_value sa shift_type

/-- Little-endian 32-bit read, `struct.unpack('<I', mem[a:a+4])`. -/
def unpack_le32 (mem : List Nat) (a : Nat) : Nat :=
  mem.getD a 0 + mem.getD (a + 1) 0 * 2 ^ 8 +
    mem.getD (a + 2) 0 * 2 ^ 16 + mem.getD (a + 3) 0 * 2 ^ 24

/-- Little-endian 32-bit write, `mem[a:a+4] = struct.pack('<I', v)`. -/
def pack_le32 (mem : List Nat) (a v : Nat) : List Nat :=
  (((mem.set a (v &&& 0xFF)).set (a + 1) ((v >>> 8) &&& 0xFF)).set
      (a + 2) ((v >>> 16) &&& 0xFF)).set (a + 3) ((v >>> 24) &&& 0xFF)

/-- The shift computation of the standalone LSL/LSR/ASR/ROR arm of
`execute_instruction` (src/arm_executor.py 268-316): given the current C
flag, the value of Rm, the shift amount and the 2-bit shift type, produce
the result and the carry-out. -/
def standalone_shift_rc (c value sa shift_type : Nat) : Nat × Nat :=
  if shift_type = 0 then
    if sa = 0 then (value, c)
    else if sa > 31 then (0, 0)
    else ((value <<< sa) &&& 0xFFFFFFFF, (value >>> (32 - sa)) &&& 1)
  else if shift_type = 1 then
    if sa = 0 ∨ sa = 32 then (0, (value >>> 31) &&& 1)
    else if sa > 32 then (0, 0)
    else (value >>> sa, (value >>> (sa - 1)) &&& 1)
  else if shift_type = 2 then
    if sa = 0 ∨ sa ≥ 32 then
      if value &&& 0x80000000 ≠ 0 then (0xFFFFFFFF, 1) else (0, 0)
    else
      let r := if value &&& 0x80000000 ≠ 0 then
          (value >>> sa) ||| (0xFFFFFFFF <<< (32 - sa))
        else value >>> sa
      (r &&& 0xFFFFFFFF, (value >>> (sa - 1)) &&& 1)
  else
    let sa := sa % 32
    if sa = 0 then (value, c)
    else
      let r := ((value >>> sa) ||| (value <<< (32 - sa))) &&& 0xFFFFFFFF
      (r, (r >>> 31) &&& 1)

/-- Translation of `ARMCPU.execute_instruction` (src/arm_executor.py 118-341).
The condition check happens first; on pass R15 is advanced to `pc + 4`
(unmasked, as in the source) before kind dispatch. -/
def ARMCPU.execute_instruction (cpu : ARMCPU) (i : ARMInstruction) : ARMCPU :=
  if cpu.condition_passed i.condition_code then
    let pc := cpu.registers.getD 15 0
    let cpu := { cpu with registers := cpu.registers.set 15 (pc + 4) }
    match i.instruction_type with
    | .MOV =>
      let rd := i.operands.rd.getD 0
      let operand2 : Nat := (cpu.get_operand2 i).1
      let cpu1 := { cpu with registers := cpu.registers.set rd operand2 }
      if i.set_flags then cpu1.update_flags (Int.ofNat operand2) none none else cpu1
    | .LDR =>
      let rd := i.operands.rd.getD 0
      let rn := i.operands.rn.getD 0
      let offset := i.operands.offset.getD 0
      let base := cpu.registers.getD rn 0
      let offset := match i.operands.rm with
        | some rm => cpu.registers.getD rm 0
        | none => offset
      let address := base + offset
      if address < cpu.memory.length - 3 then
        let value := unpack_le32 cpu.memory address
        { cpu with registers := cpu.registers.set rd value }
      else cpu
    | .STR =>
      let rd := i.operands.rd.getD 0
      let rn := i.operands.rn.getD 0
      let offset := i.operands.offset.getD 0
      let base := cpu.registers.getD rn 0
      let offset := match i.operands.rm with
        | some rm => cpu.registers.getD rm 0
        | none => offset
      let address := base + offset
      let value := cpu.registers.getD rd 0
      if address < cpu.memory.length - 3 then
        { cpu with memory := pack_le32 cpu.memory address value }
      else cpu
    | .ADD =>
      let rd := i.operands.rd.getD 0
      let rn := i.operands.rn.getD 0
      let operand2 : Nat := (cpu.get_operand2 i).1
      let op1 := cpu.registers.getD rn 0
      let result : Nat := op1 + operand2
      let cpu1 := { cpu with registers := cpu.registers.set rd (result &&& 0xFFFFFFFF) }
      if i.set_flags then
        let carry_out := decide (result > 0xFFFFFFFF)
        let overflow := decide (((op1 ^^^ result) &&& (operand2 ^^^ result)) &&& 0x80000000 ≠ 0)
        cpu1.update_flags (Int.ofNat result) (some carry_out) (some overflow)
      else cpu1
    | .SUB =>
      let rd := i.operands.rd.getD 0
      let rn := i.operands.rn.getD 0
      let operand2 : Nat := (cpu.get_operand2 i).1
      let op1 := cpu.registers.getD rn 0
      let result : Int := (op1 : Int) - (operand2 : Int)
      let cpu1 := { cpu with registers := cpu.registers.set rd (int_mask32 result) }
      if i.set_flags then
        let carry_out := decide (op1 ≥ operand2)
        -- Python xors the signed result; bit 31 of a two's-complement int
        -- equals bit 31 of its value mod 2^32, so the mask is applied first.
        let overflow :=
          decide (((op1 ^^^ operand2) &&& (op1 ^^^ int_mask32 result)) &&& 0x80000000 ≠ 0)
        cpu1.update_flags result (some carry_out) (some overflow)
      else cpu1
    | .MUL =>
      let rd := i.operands.rd.getD 0
      let rm := i.operands.rm.getD 0
      let rs := i.operands.rs.getD 0
      let result : Nat := cpu.registers.getD rm 0 * cpu.registers.getD rs 0
      let cpu1 := { cpu with registers := cpu.registers.set rd (result &&& 0xFFFFFFFF) }
      if i.set_flags then cpu1.update_flags (Int.ofNat result) none none else cpu1
    | .MLA =>
      let rd := i.operands.rd.getD 0
      let rm := i.operands.rm.getD 0
      let rs := i.operands.rs.getD 0
      let rn := i.operands.rn.getD 0
      let result : Nat := cpu.registers.getD rm 0 * cpu.registers.getD rs 0 + cpu.registers.getD rn 0
      let cpu1 := { cpu with registers := cpu.registers.set rd (result &&& 0xFFFFFFFF) }
      if i.set_flags then cpu1.update_flags (Int.ofNat result) none none else cpu1
    | .AND =>
      let rd := i.operands.rd.getD 0
      let rn := i.operands.rn.getD 0
      let operand2 : Nat := (cpu.get_operand2 i).1
      let result : Nat := cpu.registers.getD rn 0 &&& operand2
      let cpu1 := { cpu with registers := cpu.registers.set rd result }
      if i.set_flags then cpu1.update_flags (Int.ofNat result) none none else cpu1
    | .ORR =>
      let rd := i.operands.rd.getD 0
      let rn := i.operands.rn.getD 0
      let operand2 : Nat := (cpu.get_operand2 i).1
      let result : Nat := cpu.registers.getD rn 0 ||| operand2
      let cpu1 := { cpu with registers := cpu.registers.set rd result }
      if i.set_flags then cpu1.update_flags (Int.ofNat result) none none else cpu1
    | .EOR =>
      let rd := i.operands.rd.getD 0
      let rn := i.operands.rn.getD 0
      let operand2 : Nat := (cpu.get_operand2 i).1
      let result : Nat := cpu.registers.getD rn 0 ^^^ operand2
      let cpu1 := { cpu with registers := cpu.registers.set rd result }
      if i.set_flags then cpu1.update_flags (Int.ofNat result) none none else cpu1
    | .CMP =>
      let rn := i.operands.rn.getD 0
      let operand2 : Nat := (cpu.get_operand2 i).1
      let op1 := cpu.registers.getD rn 0
      let result : Int := (op1 : Int) - (operand2 : Int)
      let carry_out := decide (op1 ≥ operand2)
      let overflow :=
        decide (((op1 ^^^ operand2) &&& (op1 ^^^ int_mask32 result)) &&& 0x80000000 ≠ 0)
      cpu.update_flags result (some carry_out) (some overflow)
    | .LSL | .LSR | .ASR | .ROR =>
      let rd := i.operands.rd.getD 0
      let rm := i.operands.rm.getD 0
      let shift_type : Nat := match i.instruction_type with
        | .LSL => 0
        | .LSR => 1
        | .ASR => 2
        | _ => 3
      let sa : Nat := match i.operands.shift_amount with
        | some a => a
        | none =>
          match i.operands.rs with
          | some rs => cpu.registers.getD rs 0 &&& 0xFF
          | none => 0
      let value := cpu.registers.getD rm 0
      let rc : Nat × Nat := standalone_shift_rc cpu.cpsr.c value sa shift_type
      let cpu1 := { cpu with registers := cpu.registers.set rd rc.1 }
      if i.set_flags then cpu1.update_flags (Int.ofNat rc.1) (some (decide (rc.2 ≠ 0))) none
      else cpu1
    | .B =>
      let offset := i.operands.offset.getD 0
      let offset := if offset &&& 0x800000 ≠ 0 then offset ||| 0xFF000000 else offset
      let offset := offset <<< 2
      { cpu with registers := cpu.registers.set 15 ((pc + 8 + offset) &&& 0xFFFFFFFF) }
    | .BL =>
      let offset := i.operands.offset.getD 0
      let offset := if offset &&& 0x800000 ≠ 0 then offset ||| 0xFF000000 else offset
      let offset := offset <<< 2
      let cpu1 := { cpu with registers := cpu.registers.set 14 (pc + 4) }
      { cpu1 with registers := cpu1.registers.set 15 ((pc + 8 + offset) &&& 0xFFFFFFFF) }
    | _ => cpu
  else cpu

/-- A cache block (`Block.__init__` in src/memory.py): invalid, clean,
tag 0, timestamp 0. -/
structure Block where
  valid : Bool
  writeback : Bool
  tag : Nat
  last_used_time : Nat
deriving DecidableEq, Repr

/-- Default-constructed block. -/
def Block.mkInit : Block :=
  { valid := false, writeback := false, tag := 0, last_used_time := 0 }

/-- A cache (`Cache` in src/memory.py): configuration, the 2-D block
table, statistics counters, and the LRU timestamp. -/
structure Cache where
  size : Nat
  block_size : Nat
  associativity : Nat
  num_blocks : Nat
  num_sets : Nat
  blocks : List (List Block)
  wb : Bool
  total_accesses : Nat
  hits : Nat
  misses : Nat
  writebacks : Nat
  time : Nat
deriving DecidableEq, Repr

/-- Translation of `Cache.__init__` (src/memory.py 17-37); a raised
`ValueError` is modelled as `none`. Note the source validates
`(size // block_size) % associativity == 0` with floor division. -/
def Cache.mk_init (size block_size associativity : Nat) (wb : Bool) : Option Cache :=
  if block_size = 0 ∨ associativity = 0 then none
  else
    let num_blocks := size / block_size
    if num_blocks % associativity ≠ 0 then none
    else
      let num_sets := num_blocks / associativity
      some { size := size, block_size := block_size, associativity := associativity,
             num_blocks := num_blocks, num_sets := num_sets,
             blocks := List.replicate num_sets (List.replicate associativity Block.mkInit),
             wb := wb, total_accesses := 0, hits := 0, misses := 0,
             writebacks := 0, time := 0 }

/-- The hit-search loop of `Cache.access` (src/memory.py 52-58): find the
first valid block with a matching tag, stamp it and set its dirty bit on a
write; `none` when no block hits. -/
def Cache.hit_scan (tm tag : Nat) (writeBack : Bool) : List Block → Option (List Block)
  | [] => none
  | b :: rest =>
    if b.valid && b.tag == tag then
      some ({ b with last_used_time := tm,
                     writeback := if writeBack then true else b.writeback } :: rest)
    else
      match Cache.hit_scan tm tag writeBack rest with
      | some rest2 => some (b :: rest2)
      | none => none

/-- The empty-block search loop of `Cache.access` (src/memory.py 64-71):
install the new tag into the first invalid block. -/
def Cache.install_scan (tm tag : Nat) (writeBack : Bool) : List Block → Option (List Block)
  | [] => none
  | b :: rest =>
    if !b.valid then
      some ({ b with valid := true, tag := tag, last_used_time := tm,
                     writeback := if writeBack then true else b.writeback } :: rest)
    else
      match Cache.install_scan tm tag writeBack rest with
      | some rest2 => some (b :: rest2)
      | none => none

/-- Position scan behind `min(set_blocks, key=lambda b: b.last_used_time)`:
Python's `min` keeps the first element on ties, so only a strictly smaller
timestamp displaces the current best. -/
def Cache.lru_index_aux : List Block → Nat → Nat → Nat → Nat
  | [], _, best, _ => best
  | b :: rest, i, best, bestTime =>
    if b.last_used_time < bestTime then Cache.lru_index_aux rest (i + 1) i b.last_used_time
    else Cache.lru_index_aux rest (i + 1) best bestTime

/-- Index of the LRU block (first block with minimal `last_used_time`). -/
def Cache.lru_index : List Block → Nat
  | [] => 0
  | b :: rest => Cache.lru_index_aux rest 1 0 b.last_used_time

/-- Translation of `Cache.access` (src/memory.py 39-82). Returns the
hit/miss flag and the updated cache. -/
def Cache.access (c : Cache) (address : Nat) (writeBack : Bool) : Bool × Cache :=
  let total_accesses := c.total_accesses + 1
  let time := c.time + 1
  let index := (address / c.block_size) % c.num_sets
  let tag := address / (c.block_size * c.num_sets)
  let set_blocks := c.blocks.getD index []
  match Cache.hit_scan time tag writeBack set_blocks with
  | some s2 =>
    (true, { c with total_accesses := total_accesses, time := time,
                    hits := c.hits + 1, blocks := c.blocks.set index s2 })
  | none =>
    let misses := c.misses + 1
    match Cache.install_scan time tag writeBack set_blocks with
    | some s2 =>
      (false, { c with total_accesses := total_accesses, time := time,
                       misses := misses, blocks := c.blocks.set index s2 })
    | none =>
      let j := Cache.lru_index set_blocks
      let lru_block := set_blocks.getD j Block.mkInit
      let writebacks := if lru_block.writeback then c.writebacks + 1 else c.writebacks
      let s2 := set_blocks.set j
        { valid := true, tag := tag, last_used_time := time, writeback := writeBack }
      (false, { c with total_accesses := total_accesses, time := time,
                       misses := misses, writebacks := writebacks,
                       blocks := c.blocks.set index s2 })

/-- C1: the multiply-family claim names the canonical ARM trigger
`W[27:22] == 000000 ∧ W[7:4] == 1001`, but the decoder's guard tests
`W[31:25] == 0`, so the repository's own test word `0xE0050194`
(labelled `MUL r5, r1, r4` in src/generate_test_binary.py) satisfies the
claimed trigger yet is decoded as data-processing AND, not MUL. -/
theorem decode_misses_canonical_mul :
    (0xE0050194 >>> 22) &&& 0x3F = 0 ∧ (0xE0050194 >>> 4) &&& 0xF = 9 ∧
    (decode 0xE0050194).instruction_type = InstrType.AND := by decide

/-- C3 counterexample: `Cache(24, 16, 1)` is accepted by the constructor
although 24 is not an exact multiple of `block_size * associativity = 16`,
refuting "construction succeeds exactly when ... size is an exact
multiple of block_size·associativity". -/
theorem cache_init_accepts_non_multiple_size :
    (Cache.mk_init 24 16 1 true).isSome = true ∧ 24 % (16 * 1) ≠ 0 := by decide

/-- C3 amended: construction succeeds exactly when `block_size > 0`,
`associativity > 0`, and the floor quotient `size / block_size` is an
exact multiple of `associativity`; otherwise the constructor raises
(modelled as `none`) and no cache object is produced. -/
theorem cache_init_isSome_iff (size block_size associativity : Nat) (wb : Bool) :
    (Cache.mk_init size block_size associativity wb).isSome = true ↔
      block_size ≠ 0 ∧ associativity ≠ 0 ∧ (size / block_size) % associativity = 0 := by
  simp only [Cache.mk_init]
  split_ifs with h1 h2
  · simp only [Option.isSome_none, Bool.false_eq_true, false_iff]
    tauto
  · simp only [Option.isSome_none, Bool.false_eq_true, false_iff]
    tauto
  · simp only [Option.isSome_some, true_iff]
    tauto

/-- C6: an instruction whose condition fails leaves the CPU state
bit-identical to its pre-state. -/
theorem condition_failed_no_state_change (cpu : ARMCPU) (i : ARMInstruction)
    (h : cpu.condition_passed i.condition_code = false) :
    cpu.execute_instruction i = cpu := by
  unfold ARMCPU.execute_instruction
  simp [h]

/-- C6 witness: with all flags zero, `ADDEQ r6, r7, r8` (condition EQ,
Z = 0) is a complete no-op from the reset state. -/
theorem condition_failed_no_state_change_witness :
    ARMCPU.init.condition_passed (decode 0x00876008).condition_code = false ∧
    ARMCPU.init.execute_instruction (decode 0x00876008) = ARMCPU.init :=
  ⟨by decide, condition_failed_no_state_change ARMCPU.init (decode 0x00876008) (by decide)⟩

/-- An unconstructible placeholder value used only as the `Option.getD`
default below; `Cache.mk_init 1024 16 64 true` is `some`, so it is never
selected. -/
def s6_fallback : Cache :=
  { size := 0, block_size := 1, associativity := 1, num_blocks := 0, num_sets := 0,
    blocks := [], wb := true, total_accesses := 0, hits := 0, misses := 0,
    writebacks := 0, time := 0 }

/-- The fully-associative 1 KiB cache of scenario S6: 16-byte blocks,
64 ways, one set. -/
def s6_cache : Cache := (Cache.mk_init 1024 16 64 true).getD s6_fallback

/-- The S6 address trace: `0, 16, ..., 16*63`, then `16, ..., 16*63`,
then `16*64`. -/
def s6_addrs : List Nat :=
  ((List.range 64).map fun k => 16 * k) ++
    ((List.range 63).map fun k => 16 * (k + 1)) ++ [16 * 64]

/-- Cache state after the first 127 S6 accesses (everything except the
final access to `16*64`). -/
def s6_before : Cache :=
  (((List.range 64).map fun k => 16 * k) ++ ((List.range 63).map fun k => 16 * (k + 1))).foldl
    (fun c a => (Cache.access c a false).2) s6_cache

/-- Cache state after the whole S6 trace. -/
def s6_final : Cache :=
  s6_addrs.foldl (fun c a => (Cache.access c a false).2) s6_cache

/-- C8: on the S6 trace the fully-associative 1 KiB / 16-byte-block cache
shows 65 misses and 63 hits; before the final access way 0 holds tag 0
(the LRU victim), afterwards it holds tag 64, and a subsequent access to
address 0 misses. -/
theorem cache_lru_scenario_s6 :
    (Cache.mk_init 1024 16 64 true).isSome = true ∧
    s6_final.misses = 65 ∧ s6_final.hits = 63 ∧
    ((s6_before.blocks.getD 0 []).getD 0 Block.mkInit).valid = true ∧
    ((s6_before.blocks.getD 0 []).getD 0 Block.mkInit).tag = 0 ∧
    ((s6_final.blocks.getD 0 []).getD 0 Block.mkInit).tag = 64 ∧
    (Cache.access s6_final 0 false).1 = false := by decide

/-- Modelled from the spec glossary: `ROR32(v, n)` is the rotate-right of
the 32-bit value `v` by `n` bits. -/
def ROR32 (v n : Nat) : Nat :=
  ((v >>> (n % 32)) ||| (v <<< (32 - n % 32))) &&& 0xFFFFFFFF

theorem getD_set_self {α : Type} (l : List α) (i : Nat) (v d : α) (h : i < l.length) :
    (l.set i v).getD i d = v := by
  simp [List.getD_eq_getElem?_getD, List.getElem?_set_self h]

theorem getD_set_ne {α : Type} (l : List α) (i j : Nat) (v d : α) (h : i ≠ j) :
    (l.set i v).getD j d = l.getD j d := by
  simp [List.getD_eq_getElem?_getD, List.getElem?_set_ne h]

theorem update_flags_registers (cpu : ARMCPU) (r : Int) (co ov : Option Bool) :
    (cpu.update_flags r co ov).registers = cpu.registers := by
  unfold ARMCPU.update_flags
  rfl

theorem decode_imm_ror_eq : ∀ imm8 < 256, ∀ rot < 16,
    (imm8 >>> (2 * rot)) ||| ((imm8 <<< (32 - 2 * rot)) &&& 0xFFFFFFFF) =
      ROR32 imm8 (2 * rot) := by decide

theorem mov_imm_sets_rd_to_ror32 (w : Nat) (cpu : ARMCPU)
    (hty : (decode w).instruction_type = .MOV)
    (himm : (decode w).operands.operand2.isSome = true)
    (hcond : cpu.condition_passed (decode w).condition_code = true)
    (hlen : cpu.registers.length = 16) :
    (cpu.execute_instruction (decode w)).registers.getD ((w >>> 12) &&& 0xF) 0 =
      ROR32 (w &&& 0xFF) (2 * ((w >>> 8) &&& 0xF)) := by
  by_cases hmul : ((w >>> 24) &&& 0xFF) >>> 1 = 0 ∧ (w >>> 4) &&& 0xF = 9
  · by_cases ha : w >>> 21 % 2 = 0 <;> simp [decode, hmul, ha] at himm
  by_cases hdp : (w >>> 26) &&& 3 = 0
  · by_cases himmF : w >>> 25 % 2 = 1
    · simp [decode, hmul, hdp, himmF] at hty hcond ⊢
      simp only [ARMCPU.execute_instruction, hcond, hty, decode, hmul, hdp]
      simp only [if_true, Option.getD_some]
      rw [apply_ite ARMCPU.registers, update_flags_registers, ite_self]
      simp only [ARMCPU.get_operand2]
      have hidx : (w >>> 12 &&& 15) < (cpu.registers.set 15 (cpu.registers.getD 15 0 + 4)).length := by
        rw [List.length_set, hlen]
        exact Nat.lt_succ_of_le Nat.and_le_right
      rw [List.getElem?_set_self hidx]
      simp only [Option.getD_some]
      exact decode_imm_ror_eq _ (Nat.lt_succ_of_le Nat.and_le_right) _
        (Nat.lt_succ_of_le Nat.and_le_right)
    · by_cases hbit4 : w >>> 4 % 2 = 0
      · by_cases hsh : ((w >>> 16) &&& 0xF) = 0 ∧ ((w >>> 21) &&& 0xF) = 13 <;>
          simp [decode, hmul, hdp, himmF, hbit4, hsh] at himm
      · by_cases hsh : ((w >>> 16) &&& 0xF) = 0 ∧ ((w >>> 21) &&& 0xF) = 13 <;>
          simp [decode, hmul, hdp, himmF, hbit4, hsh] at himm
  by_cases hls : (w >>> 26) &&& 3 = 1
  · by_cases hib : w >>> 25 % 2 = 0 <;>
      simp [decode, hmul, hdp, hls, hib] at himm
  by_cases hbr : (w >>> 25) &&& 7 = 5
  · simp [decode, hmul, hdp, hls, hbr] at himm
  simp [decode, hmul, hdp, hls, hbr] at himm

/-- C9 witness: scenario S1, `0xE3A00080` (`MOV r0, #0x80`) executed from
reset loads `R0 = ROR32(0x80, 0) = 0x80`. -/
theorem mov_imm_sets_rd_to_ror32_witness :
    (decode 0xE3A00080).instruction_type = .MOV ∧
    (ARMCPU.init.execute_instruction (decode 0xE3A00080)).registers.getD
        ((0xE3A00080 >>> 12) &&& 0xF) 0 =
      ROR32 (0xE3A00080 &&& 0xFF) (2 * ((0xE3A00080 >>> 8) &&& 0xF)) :=
  ⟨by decide, mov_imm_sets_rd_to_ror32 0xE3A00080 ARMCPU.init (by decide) (by decide)
    (by decide) (by decide)⟩

/-- A right shift by 32 annihilates any 32-bit value. -/
theorem shiftRight32_eq_zero (v : Nat) (h : v < 2 ^ 32) : v >>> 32 = 0 := by
  rw [Nat.shiftRight_eq_div_pow]
  exact Nat.div_eq_of_lt h

/-- Bit 31 of `v`, extracted as the source does with `(v >> 31) & 1`,
matches the sign test `v & 0x80000000 != 0`. -/
theorem bit31_extract (v : Nat) :
    (v >>> 31) &&& 1 = if v &&& 0x80000000 ≠ 0 then 1 else 0 := by
  have h1 : v >>> 31 = v / 2 ^ 31 := Nat.shiftRight_eq_div_pow v 31
  have h2 : (0x80000000 : Nat) = 2 ^ 31 := by norm_num
  rw [Nat.and_one_is_mod, h1, h2, Nat.and_two_pow, Nat.testBit_to_div_mod]
  rcases Nat.mod_two_eq_zero_or_one (v / 2 ^ 31) with h3 | h3 <;> simp [h3] <;>
    split_ifs <;> omega

/-- Mod-2 form of `bit31_extract`. -/
theorem bit31_mod (v : Nat) :
    v >>> 31 % 2 = if v &&& 0x80000000 ≠ 0 then 1 else 0 := by
  rw [← Nat.and_one_is_mod]
  exact bit31_extract v

/-- Core equivalence: the standalone-shift computation agrees with the
shift dispatch of `_get_operand2` for every nonzero amount, and for
amount 0 when the type is LSL (00) or ROR (11). -/
theorem standalone_rc_eq_operand2_shift (c value sa ty : Nat)
    (hty : ty < 4) (hv : value < 2 ^ 32)
    (hsa : sa ≠ 0 ∨ ty = 0 ∨ ty = 3) :
    standalone_shift_rc c value sa ty = operand2_shift c value sa (some ty) := by
  have h4 : ty = 0 ∨ ty = 1 ∨ ty = 2 ∨ ty = 3 := by omega
  have hr32 : value >>> 32 = 0 := shiftRight32_eq_zero value hv
  rcases h4 with rfl | rfl | rfl | rfl <;>
    unfold standalone_shift_rc operand2_shift <;>
    simp only [Option.some.injEq] <;>
    split_ifs <;>
      first
        | rfl
        | omega
        | simp_all [hr32, bit31_extract, bit31_mod, Prod.ext_iff]

/-- Flag updates never touch the register file. -/
theorem update_flags_c_some (cpu : ARMCPU) (r : Int) (b : Bool) :
    (cpu.update_flags r (some b) none).cpsr.c = if b = true then 1 else 0 := by
  unfold ARMCPU.update_flags
  cases b <;> rfl

/-- Congruence for the 0/1 encoding of a carry flag. -/
theorem ite_ne_congr (x y : Nat) (h : x = y) :
    (if x ≠ 0 then (1 : Nat) else 0) = if y ≠ 0 then 1 else 0 := by rw [h]

/-- The effective shift amount shared by the standalone-shift executor path
(src/arm_executor.py 261-266) and `_get_operand2` (lines 67-72): the
immediate `shift_amount` when present, else the low byte of `Rs`, else 0. -/
def standalone_amount (cpu : ARMCPU) (sao rso : Option Nat) : Nat :=
  match sao with
  | some a => a
  | none =>
    match rso with
    | some r => cpu.registers.getD r 0 &&& 0xFF
    | none => 0

/-- The CPU state after the executor's R15 advance, at which point both the
standalone-shift code and `_get_operand2` read their registers. -/
def advanced (cpu : ARMCPU) : ARMCPU :=
  { cpu with registers := cpu.registers.set 15 (cpu.registers.getD 15 0 + 4) }

/-- A standalone shift instruction as produced by the decoder
(immediate-amount form when `sao = some a`, register form when
`rso = some r`). -/
def standalone_shift_instr (ty cond rd rm : Nat) (sao rso : Option Nat) (s : Bool) :
    ARMInstruction :=
  { binary_word := 0, condition_code := cond, instruction_type := shift_kind ty,
    set_flags := s,
    operands := { rd := some rd, rm := some rm, shift_amount := sao, rs := rso } }

/-- A register-form operand2 specification carrying the same shift fields,
as consumed by `_get_operand2`. -/
def reg_operand2_instr (ty rm : Nat) (sao rso : Option Nat) : ARMInstruction :=
  { binary_word := 0, condition_code := 14, instruction_type := shift_kind ty,
    set_flags := false,
    operands := { rm := some rm, shift_type := some ty, shift_amount := sao, rs := rso } }

theorem shift_kind_zero : shift_kind 0 = .LSL := rfl

theorem shift_kind_one : shift_kind 1 = .LSR := rfl

theorem shift_kind_two : shift_kind 2 = .ASR := rfl

theorem shift_kind_three : shift_kind 3 = .ROR := rfl

/-- C2 amended: a standalone shift whose condition passes computes rd and
(under S) the C flag with exactly the §4.2 shifter semantics — the same
`_get_operand2` function used for register-form operand2 — whenever the
effective shift amount is nonzero or the kind is LSL or ROR; for LSR and
ASR an amount of 0 is instead treated as shift-by-32 (see the C2
counterexample). -/
theorem standalone_shift_matches_operand2_shifter
    (cpu : ARMCPU) (ty cond rd rm : Nat) (sao rso : Option Nat) (s : Bool)
    (hty : ty < 4) (hrd : rd < cpu.registers.length)
    (hcond : cpu.condition_passed cond = true)
    (hrm : (advanced cpu).registers.getD rm 0 < 2 ^ 32)
    (hsa : standalone_amount (advanced cpu) sao rso ≠ 0 ∨ ty = 0 ∨ ty = 3) :
    (cpu.execute_instruction (standalone_shift_instr ty cond rd rm sao rso s)).registers.getD rd 0 =
      ((advanced cpu).get_operand2 (reg_operand2_instr ty rm sao rso)).1 ∧
    (s = true →
      (cpu.execute_instruction (standalone_shift_instr ty cond rd rm sao rso s)).cpsr.c =
        if ((advanced cpu).get_operand2 (reg_operand2_instr ty rm sao rso)).2 ≠ 0 then 1 else 0) := by
  have hrd1 : rd < (cpu.registers.set 15 (cpu.registers.getD 15 0 + 4)).length := by
    rw [List.length_set]; exact hrd
  have h4 : ty = 0 ∨ ty = 1 ∨ ty = 2 ∨ ty = 3 := by omega
  rcases h4 with rfl | rfl | rfl | rfl <;> rcases sao with _ | a <;> rcases rso with _ | r
  all_goals
    simp only [standalone_shift_instr, reg_operand2_instr, advanced, standalone_amount,
      shift_kind_zero, shift_kind_one, shift_kind_two, shift_kind_three, reduceIte] at hsa hrm ⊢
  all_goals try (exact absurd hsa (by omega))
  all_goals
    simp only [ARMCPU.execute_instruction, ARMCPU.get_operand2, hcond, if_true, reduceIte,
      Option.getD_some]
  all_goals refine ⟨?_, fun hs => ?_⟩
  all_goals try (rw [apply_ite ARMCPU.registers, update_flags_registers, ite_self, getD_set_self _ _ _ _ hrd1])
  all_goals try (rw [hs]; simp only [if_true, reduceIte]; rw [update_flags_c_some]; simp only [decide_eq_true_eq]; apply ite_ne_congr)
  all_goals try (rw [standalone_rc_eq_operand2_shift] <;> first | omega | exact hrm | tauto)

/-- CPU with R2 = 5, carry flag set: the C2 counterexample state. -/
def cpu_lsr0 : ARMCPU :=
  { registers := [0, 0, 5, 0, 0, 0, 0, 0, 0, 0, 0, 0, 0, 0, 0, 0],
    cpsr := { n := 0, z := 0, c := 1, v := 0 },
    memory := [] }

/-- C2 counterexample: `0xE1A01022` decodes to standalone `LSR r1, r2, #0`
with condition AL; the claim says amount 0 yields rd = Rm (5) with
carry-out = C, but executing it writes rd = 0 while the §4.2 shifter
(`_get_operand2` on the same fields) yields (5, carry 1). -/
theorem standalone_lsr_zero_differs_from_shifter :
    (decode 0xE1A01022).instruction_type = .LSR ∧
    (decode 0xE1A01022).operands.shift_amount = some 0 ∧
    cpu_lsr0.condition_passed (decode 0xE1A01022).condition_code = true ∧
    (cpu_lsr0.execute_instruction (decode 0xE1A01022)).registers.getD 1 0 = 0 ∧
    ((advanced cpu_lsr0).get_operand2 (reg_operand2_instr 1 2 (some 0) none)).1 = 5 ∧
    ((advanced cpu_lsr0).get_operand2 (reg_operand2_instr 1 2 (some 0) none)).2 = 1 := by
  decide

/-- C2 witness: `LSR r1, r2, #4` with S set, from `cpu_lsr0`, matches the
shifter on both the result and the C flag. -/
theorem standalone_shift_matches_operand2_shifter_witness :
    (cpu_lsr0.execute_instruction (standalone_shift_instr 1 14 1 2 (some 4) none true)).registers.getD 1 0 =
      ((advanced cpu_lsr0).get_operand2 (reg_operand2_instr 1 2 (some 4) none)).1 ∧
    ((true : Bool) = true →
      (cpu_lsr0.execute_instruction (standalone_shift_instr 1 14 1 2 (some 4) none true)).cpsr.c =
        if ((advanced cpu_lsr0).get_operand2 (reg_operand2_instr 1 2 (some 4) none)).2 ≠ 0 then 1
        else 0) :=
  standalone_shift_matches_operand2_shifter cpu_lsr0 1 14 1 2 (some 4) none true (by decide)
    (by decide) (by decide) (by decide) (by decide)

/-- C4 amended: for an LDR or STR whose condition passes, when the
computed address (base from Rn plus immediate offset or Rm) is not within
`[0, memory_len - 4]` the access is skipped: the post-state is exactly the
pre-state with R15 advanced to pc + 4 — memory, flags and all other
registers unchanged; when the address is in range, LDR loads and STR
stores a little-endian 32-bit word. -/
theorem ldr_str_memory_semantics (cpu : ARMCPU) (i : ARMInstruction)
    (hcond : cpu.condition_passed i.condition_code = true) :
    (i.instruction_type = .LDR →
      ¬((advanced cpu).registers.getD (i.operands.rn.getD 0) 0 +
          (match i.operands.rm with
           | some rm => (advanced cpu).registers.getD rm 0
           | none => i.operands.offset.getD 0) < cpu.memory.length - 3) →
      cpu.execute_instruction i = advanced cpu) ∧
    (i.instruction_type = .STR →
      ¬((advanced cpu).registers.getD (i.operands.rn.getD 0) 0 +
          (match i.operands.rm with
           | some rm => (advanced cpu).registers.getD rm 0
           | none => i.operands.offset.getD 0) < cpu.memory.length - 3) →
      cpu.execute_instruction i = advanced cpu) ∧
    (i.instruction_type = .LDR →
      ((advanced cpu).registers.getD (i.operands.rn.getD 0) 0 +
          (match i.operands.rm with
           | some rm => (advanced cpu).registers.getD rm 0
           | none => i.operands.offset.getD 0) < cpu.memory.length - 3) →
      cpu.execute_instruction i =
        { advanced cpu with
            registers := (advanced cpu).registers.set (i.operands.rd.getD 0)
              (unpack_le32 cpu.memory
                ((advanced cpu).registers.getD (i.operands.rn.getD 0) 0 +
                  (match i.operands.rm with
                   | some rm => (advanced cpu).registers.getD rm 0
                   | none => i.operands.offset.getD 0))) }) ∧
    (i.instruction_type = .STR →
      ((advanced cpu).registers.getD (i.operands.rn.getD 0) 0 +
          (match i.operands.rm with
           | some rm => (advanced cpu).registers.getD rm 0
           | none => i.operands.offset.getD 0) < cpu.memory.length - 3) →
      cpu.execute_instruction i =
        { advanced cpu with
            memory := pack_le32 cpu.memory
              ((advanced cpu).registers.getD (i.operands.rn.getD 0) 0 +
                (match i.operands.rm with
                 | some rm => (advanced cpu).registers.getD rm 0
                 | none => i.operands.offset.getD 0))
              ((advanced cpu).registers.getD (i.operands.rd.getD 0) 0) }) := by
  refine ⟨fun hk h => ?_, fun hk h => ?_, fun hk h => ?_, fun hk h => ?_⟩ <;>
    simp only [advanced] at h ⊢ <;>
    simp only [ARMCPU.execute_instruction, hcond, if_true, hk] <;>
    rcases hrm : i.operands.rm with _ | rm <;>
    simp only [hrm] at h ⊢ <;>
    first | simp only [if_neg h] | simp only [if_pos h]

/-- Reset CPU with R1 = 2000, pointing outside the 1024-byte memory. -/
def cpu_ldr_oob : ARMCPU :=
  { ARMCPU.init with registers := (List.replicate 16 0).set 1 2000 }

/-- C4 counterexample: `0xE5910000` (`LDR r0, [r1]`) with R1 = 2000 and a
1024-byte memory computes the out-of-range address 2000, yet execution is
not free of register mutation: R15 moves from 0 to 4, refuting the claim
that "registers ... are unchanged" for out-of-range accesses. -/
theorem ldr_out_of_range_advances_r15 :
    (decode 0xE5910000).instruction_type = .LDR ∧
    cpu_ldr_oob.condition_passed (decode 0xE5910000).condition_code = true ∧
    cpu_ldr_oob.memory.length = 1024 ∧
    cpu_ldr_oob.registers.getD 1 0 + (decode 0xE5910000).operands.offset.getD 0 = 2000 ∧
    cpu_ldr_oob.registers.getD 15 0 = 0 ∧
    (cpu_ldr_oob.execute_instruction (decode 0xE5910000)).registers.getD 15 0 = 4 := by
  decide

/-- C4 witness: the out-of-range LDR above leaves the state exactly
`advanced cpu_ldr_oob` (only the R15 advance). -/
theorem ldr_str_memory_semantics_witness :
    cpu_ldr_oob.execute_instruction (decode 0xE5910000) = advanced cpu_ldr_oob :=
  (ldr_str_memory_semantics cpu_ldr_oob (decode 0xE5910000) (by decide)).1 (by decide)
    (by decide)

/-- Flags are 0/1 valued. -/
def Flags01 (f : CPSR) : Prop := f.n ≤ 1 ∧ f.z ≤ 1 ∧ f.c ≤ 1 ∧ f.v ≤ 1

theorem update_flags_memory (cpu : ARMCPU) (r : Int) (co ov : Option Bool) :
    (cpu.update_flags r co ov).memory = cpu.memory := by
  unfold ARMCPU.update_flags
  rfl

theorem update_flags_flags01 (cpu : ARMCPU) (r : Int) (co ov : Option Bool)
    (h : Flags01 cpu.cpsr) : Flags01 (cpu.update_flags r co ov).cpsr := by
  obtain ⟨h1, h2, h3, h4⟩ := h
  unfold ARMCPU.update_flags Flags01
  rcases co with _ | co <;> rcases ov with _ | ov <;> simp only [] <;>
    refine ⟨?_, ?_, ?_, ?_⟩ <;>
    first
      | assumption
      | (split_ifs <;> omega)

theorem getD_lt_of_forall (l : List Nat) (k B : Nat) (hB : 0 < B)
    (h : ∀ r ∈ l, r < B) : l.getD k 0 < B := by
  rw [List.getD_eq_getElem?_getD]
  cases hk : l[k]? with
  | none => simpa using hB
  | some v =>
    have := List.getElem?_mem hk
    exact (by simpa using h v this)

theorem forall_mem_set {P : Nat → Prop} (l : List Nat) (i v : Nat)
    (h : ∀ r ∈ l, P r) (hv : P v) : ∀ r ∈ l.set i v, P r := by
  intro r hr
  rcases List.mem_or_eq_of_mem_set hr with h1 | rfl
  · exact h r h1
  · exact hv

theorem and_mask32_lt (x : Nat) : x &&& 0xFFFFFFFF < 2 ^ 32 := by
  have := Nat.and_le_right (n := x) (m := 0xFFFFFFFF)
  omega

theorem shiftRight_le_self (v n : Nat) : v >>> n ≤ v := by
  rw [Nat.shiftRight_eq_div_pow]
  exact Nat.div_le_self v (2 ^ n)

theorem int_mask32_lt (r : Int) : int_mask32 r < 2 ^ 32 := by
  unfold int_mask32
  have h1 : (0 : Int) ≤ r % 2 ^ 32 := Int.emod_nonneg r (by norm_num)
  have h2 : r % 2 ^ 32 < 2 ^ 32 := Int.emod_lt_of_pos r (by norm_num)
  omega

theorem operand2_shift_fst_lt (c v sa : Nat) (st : Option Nat) (hv : v < 2 ^ 32) :
    (operand2_shift c v sa st).1 < 2 ^ 32 := by
  have hs1 : v >>> sa ≤ v := shiftRight_le_self v sa
  have hs2 : v >>> 32 ≤ v := shiftRight_le_self v 32
  simp only [operand2_shift]
  split_ifs <;>
    first
      | assumption
      | omega
      | exact and_mask32_lt _

theorem standalone_shift_rc_fst_lt (c v sa ty : Nat) (hv : v < 2 ^ 32) :
    (standalone_shift_rc c v sa ty).1 < 2 ^ 32 := by
  have hs1 : v >>> sa ≤ v := shiftRight_le_self v sa
  have hs2 : v >>> (sa % 32) ≤ v := shiftRight_le_self v (sa % 32)
  simp only [standalone_shift_rc]
  split_ifs <;>
    first
      | assumption
      | omega
      | exact and_mask32_lt _

theorem get_operand2_lt (cpu : ARMCPU) (i : ARMInstruction)
    (hr : ∀ r ∈ cpu.registers, r < 2 ^ 32)
    (ho : ∀ v, i.operands.operand2 = some v → v < 2 ^ 32) :
    (cpu.get_operand2 i).1 < 2 ^ 32 := by
  unfold ARMCPU.get_operand2
  cases h2 : i.operands.operand2 with
  | some v => exact ho v h2
  | none =>
    simp only []
    have hrm : cpu.registers.getD (i.operands.rm.getD 0) 0 < 2 ^ 32 :=
      getD_lt_of_forall _ _ _ (by norm_num) hr
    cases i.operands.shift_amount with
    | some a => exact operand2_shift_fst_lt _ _ _ _ hrm
    | none =>
      cases i.operands.rs with
      | some r => exact operand2_shift_fst_lt _ _ _ _ hrm
      | none => exact hrm

theorem unpack_le32_lt (mem : List Nat) (a : Nat) (hm : ∀ b ∈ mem, b < 256) :
    unpack_le32 mem a < 2 ^ 32 := by
  unfold unpack_le32
  have h0 := getD_lt_of_forall mem a 256 (by norm_num) hm
  have h1 := getD_lt_of_forall mem (a + 1) 256 (by norm_num) hm
  have h2 := getD_lt_of_forall mem (a + 2) 256 (by norm_num) hm
  have h3 := getD_lt_of_forall mem (a + 3) 256 (by norm_num) hm
  omega

theorem pack_le32_bytes (mem : List Nat) (a v : Nat) (hm : ∀ b ∈ mem, b < 256) :
    ∀ b ∈ pack_le32 mem a v, b < 256 := by
  unfold pack_le32
  have hb : ∀ x : Nat, x &&& 0xFF < 256 := fun x => by
    have := Nat.and_le_right (n := x) (m := 0xFF)
    omega
  exact forall_mem_set _ _ _
    (forall_mem_set _ _ _ (forall_mem_set _ _ _ (forall_mem_set _ _ _ hm (hb _)) (hb _)) (hb _))
    (hb _)

theorem and_lt_of_left (x y B : Nat) (h : x < B) : x &&& y < B := by
  have := Nat.and_le_left (n := x) (m := y)
  omega

theorem execute_regs_bound (cpu : ARMCPU) (i : ARMInstruction)
    (hr : ∀ r ∈ cpu.registers, r < 2 ^ 32)
    (hm : ∀ b ∈ cpu.memory, b < 256)
    (hpc : cpu.registers.getD 15 0 + 4 < 2 ^ 32)
    (ho : ∀ v, i.operands.operand2 = some v → v < 2 ^ 32) :
    (∀ r ∈ (cpu.execute_instruction i).registers, r < 2 ^ 32) ∧
    (∀ b ∈ (cpu.execute_instruction i).memory, b < 256) := by
  unfold ARMCPU.execute_instruction
  split
  case isFalse => exact ⟨hr, hm⟩
  have hr1 : ∀ r ∈ cpu.registers.set 15 (cpu.registers.getD 15 0 + 4), r < 2 ^ 32 :=
    forall_mem_set _ _ _ hr hpc
  have hcpu1 : ∀ r ∈ (advanced cpu).registers, r < 2 ^ 32 := hr1
  cases hty : i.instruction_type
  all_goals simp only []
  all_goals try exact ⟨hr1, hm⟩
  case MOV =>
    refine ⟨?_, ?_⟩
    · rw [apply_ite ARMCPU.registers, update_flags_registers, ite_self]
      exact forall_mem_set _ _ _ hr1 (get_operand2_lt _ _ hr1 ho)
    · rw [apply_ite ARMCPU.memory, update_flags_memory, ite_self]
      exact hm
  case ADD =>
    refine ⟨?_, ?_⟩
    · rw [apply_ite ARMCPU.registers, update_flags_registers, ite_self]
      exact forall_mem_set _ _ _ hr1 (and_mask32_lt _)
    · rw [apply_ite ARMCPU.memory, update_flags_memory, ite_self]
      exact hm
  case SUB =>
    refine ⟨?_, ?_⟩
    · rw [apply_ite ARMCPU.registers, update_flags_registers, ite_self]
      exact forall_mem_set _ _ _ hr1 (int_mask32_lt _)
    · rw [apply_ite ARMCPU.memory, update_flags_memory, ite_self]
      exact hm
  case MUL =>
    refine ⟨?_, ?_⟩
    · rw [apply_ite ARMCPU.registers, update_flags_registers, ite_self]
      exact forall_mem_set _ _ _ hr1 (and_mask32_lt _)
    · rw [apply_ite ARMCPU.memory, update_flags_memory, ite_self]
      exact hm
  case MLA =>
    refine ⟨?_, ?_⟩
    · rw [apply_ite ARMCPU.registers, update_flags_registers, ite_self]
      exact forall_mem_set _ _ _ hr1 (and_mask32_lt _)
    · rw [apply_ite ARMCPU.memory, update_flags_memory, ite_self]
      exact hm
  case AND =>
    refine ⟨?_, ?_⟩
    · rw [apply_ite ARMCPU.registers, update_flags_registers, ite_self]
      exact forall_mem_set _ _ _ hr1
        (and_lt_of_left _ _ _ (getD_lt_of_forall _ _ _ (by norm_num) hr1))
    · rw [apply_ite ARMCPU.memory, update_flags_memory, ite_self]
      exact hm
  case ORR =>
    refine ⟨?_, ?_⟩
    · rw [apply_ite ARMCPU.registers, update_flags_registers, ite_self]
      exact forall_mem_set _ _ _ hr1
        (Nat.or_lt_two_pow (getD_lt_of_forall _ _ _ (by norm_num) hr1)
          (get_operand2_lt _ _ hr1 ho))
    · rw [apply_ite ARMCPU.memory, update_flags_memory, ite_self]
      exact hm
  case EOR =>
    refine ⟨?_, ?_⟩
    · rw [apply_ite ARMCPU.registers, update_flags_registers, ite_self]
      exact forall_mem_set _ _ _ hr1
        (Nat.xor_lt_two_pow (getD_lt_of_forall _ _ _ (by norm_num) hr1)
          (get_operand2_lt _ _ hr1 ho))
    · rw [apply_ite ARMCPU.memory, update_flags_memory, ite_self]
      exact hm
  case LDR =>
    refine ⟨?_, ?_⟩ <;> split_ifs
    · exact forall_mem_set _ _ _ hr1 (unpack_le32_lt _ _ hm)
    · exact hr1
    · exact hm
    · exact hm
  case STR =>
    refine ⟨?_, ?_⟩ <;> split_ifs
    · exact hr1
    · exact hr1
    · exact pack_le32_bytes _ _ _ hm
    · exact hm
  case LSL =>
    refine ⟨?_, ?_⟩
    · rw [apply_ite ARMCPU.registers, update_flags_registers, ite_self]
      exact forall_mem_set _ _ _ hr1
        (standalone_shift_rc_fst_lt _ _ _ _ (getD_lt_of_forall _ _ _ (by norm_num) hr1))
    · rw [apply_ite ARMCPU.memory, update_flags_memory, ite_self]
      exact hm
  case LSR =>
    refine ⟨?_, ?_⟩
    · rw [apply_ite ARMCPU.registers, update_flags_registers, ite_self]
      exact forall_mem_set _ _ _ hr1
        (standalone_shift_rc_fst_lt _ _ _ _ (getD_lt_of_forall _ _ _ (by norm_num) hr1))
    · rw [apply_ite ARMCPU.memory, update_flags_memory, ite_self]
      exact hm
  case ASR =>
    refine ⟨?_, ?_⟩
    · rw [apply_ite ARMCPU.registers, update_flags_registers, ite_self]
      exact forall_mem_set _ _ _ hr1
        (standalone_shift_rc_fst_lt _ _ _ _ (getD_lt_of_forall _ _ _ (by norm_num) hr1))
    · rw [apply_ite ARMCPU.memory, update_flags_memory, ite_self]
      exact hm
  case ROR =>
    refine ⟨?_, ?_⟩
    · rw [apply_ite ARMCPU.registers, update_flags_registers, ite_self]
      exact forall_mem_set _ _ _ hr1
        (standalone_shift_rc_fst_lt _ _ _ _ (getD_lt_of_forall _ _ _ (by norm_num) hr1))
    · rw [apply_ite ARMCPU.memory, update_flags_memory, ite_self]
      exact hm
  case B =>
    exact ⟨forall_mem_set _ _ _ hr1 (and_mask32_lt _), hm⟩
  case BL =>
    exact ⟨forall_mem_set _ _ _ (forall_mem_set _ _ _ hr1 hpc) (and_mask32_lt _), hm⟩

theorem execute_flags01 (cpu : ARMCPU) (i : ARMInstruction) (h : Flags01 cpu.cpsr) :
    Flags01 (cpu.execute_instruction i).cpsr := by
  unfold ARMCPU.execute_instruction
  split
  case isFalse => exact h
  cases hty : i.instruction_type
  all_goals simp only []
  all_goals try exact h
  all_goals try exact update_flags_flags01 _ _ _ _ h
  all_goals split_ifs
  all_goals first
    | exact h
    | exact update_flags_flags01 _ _ _ _ h

theorem foldl_execute_flags01 (instrs : List ARMInstruction) (cpu : ARMCPU)
    (h : Flags01 cpu.cpsr) :
    Flags01 ((instrs.foldl (fun c j => c.execute_instruction j) cpu).cpsr) := by
  induction instrs generalizing cpu with
  | nil => exact h
  | cons j rest ih => exact ih _ (execute_flags01 cpu j h)

theorem decode_operand2_lt (w : Nat) :
    ∀ v, (decode w).operands.operand2 = some v → v < 2 ^ 32 := by
  intro v hv
  unfold decode at hv
  simp only [apply_ite ARMInstruction.operands, apply_ite Operands.operand2] at hv
  split_ifs at hv
  all_goals first
    | (obtain rfl := Option.some.inj hv ;
       refine Nat.or_lt_two_pow ?_ (and_mask32_lt _) ;
       have h1 := shiftRight_le_self (w &&& 0xFF) (2 * ((w >>> 8) &&& 0xF)) ;
       have h2 := Nat.and_le_right (n := w) (m := 0xFF) ;
       omega)

/-- CPU with R15 at the top of the 32-bit range. -/
def cpu_pc_max : ARMCPU :=
  { ARMCPU.init with registers := (List.replicate 16 0).set 15 0xFFFFFFFC }

/-- C5 counterexample: from a state whose registers are all 32-bit values
(R15 = 0xFFFFFFFC), executing one MOV leaves R15 = 0x100000000, outside
[0, 2^32): the unmasked `registers[15] = pc + 4` breaks the invariant. -/
theorem execute_overflows_r15_bound :
    (∀ r ∈ cpu_pc_max.registers, r < 2 ^ 32) ∧
    (cpu_pc_max.execute_instruction (decode 0xE3A00080)).registers.getD 15 0 = 2 ^ 32 := by
  decide

/-- C5 amended: (1) every CPSR flag stays in {0,1} across any sequence of
executed instructions; (2) the 32-bit register bound (together with the
byte bound on memory) is preserved by a single step on any decoded
instruction provided R15 has room for the unmasked pc + 4 advance
(R15 + 4 < 2^32); without that headroom the register bound fails, as the
C5 counterexample shows. -/
theorem execute_preserves_flags_and_bounded_registers :
    (∀ (cpu : ARMCPU) (instrs : List ARMInstruction), Flags01 cpu.cpsr →
      Flags01 ((instrs.foldl (fun c j => c.execute_instruction j) cpu).cpsr)) ∧
    (∀ (cpu : ARMCPU) (w : Nat),
      (∀ r ∈ cpu.registers, r < 2 ^ 32) →
      (∀ b ∈ cpu.memory, b < 256) →
      cpu.registers.getD 15 0 + 4 < 2 ^ 32 →
      (∀ r ∈ (cpu.execute_instruction (decode w)).registers, r < 2 ^ 32) ∧
      (∀ b ∈ (cpu.execute_instruction (decode w)).memory, b < 256)) :=
  ⟨fun cpu instrs h => foldl_execute_flags01 instrs cpu h,
   fun cpu w hr hm hpc => execute_regs_bound cpu (decode w) hr hm hpc (decode_operand2_lt w)⟩

/-- C5 witness: both parts applied at the reset CPU with the S1 MOV word. -/
theorem execute_preserves_flags_and_bounded_registers_witness :
    Flags01 (([decode 0xE3A00080].foldl (fun c j => c.execute_instruction j) ARMCPU.init).cpsr) ∧
    (∀ r ∈ (ARMCPU.init.execute_instruction (decode 0xE3A00080)).registers, r < 2 ^ 32) :=
  ⟨execute_preserves_flags_and_bounded_registers.1 ARMCPU.init [decode 0xE3A00080]
      (by refine ⟨?_, ?_, ?_, ?_⟩ <;> decide),
   (execute_preserves_flags_and_bounded_registers.2 ARMCPU.init 0xE3A00080 (by decide)
      (fun b hb => by rw [List.eq_of_mem_replicate hb]; norm_num) (by decide)).1⟩

/-- At most one valid block in a set carries any given tag. -/
def SetTagUnique (s : List Block) : Prop :=
  ∀ t, s.countP (fun b => b.valid && b.tag == t) ≤ 1

/-- The C7 cache invariant: the counter equation plus per-set tag
uniqueness. -/
def CacheInv (c : Cache) : Prop :=
  c.total_accesses = c.hits + c.misses ∧ ∀ s ∈ c.blocks, SetTagUnique s

theorem hit_scan_countP (tm tag : Nat) (wb : Bool) :
    ∀ (s s2 : List Block), Cache.hit_scan tm tag wb s = some s2 →
      ∀ t, s2.countP (fun b => b.valid && b.tag == t) =
        s.countP (fun b => b.valid && b.tag == t) := by
  intro s
  induction s with
  | nil => intro s2 h; simp [Cache.hit_scan] at h
  | cons b rest ih =>
    intro s2 h t
    unfold Cache.hit_scan at h
    by_cases hb : (b.valid && b.tag == tag) = true
    · rw [if_pos hb] at h
      obtain rfl := Option.some.inj h
      simp [List.countP_cons]
    · rw [if_neg hb] at h
      cases hr : Cache.hit_scan tm tag wb rest with
      | none => rw [hr] at h; simp at h
      | some rest2 =>
        rw [hr] at h
        obtain rfl := Option.some.inj (by simpa using h)
        simp [List.countP_cons, ih rest2 hr t]

theorem hit_scan_none_countP (tm tag : Nat) (wb : Bool) :
    ∀ (s : List Block), Cache.hit_scan tm tag wb s = none →
      s.countP (fun b => b.valid && b.tag == tag) = 0 := by
  intro s
  induction s with
  | nil => intro h; simp
  | cons b rest ih =>
    intro h
    unfold Cache.hit_scan at h
    by_cases hb : (b.valid && b.tag == tag) = true
    · rw [if_pos hb] at h; simp at h
    · rw [if_neg hb] at h
      cases hr : Cache.hit_scan tm tag wb rest with
      | none => simp [List.countP_cons, hb, ih hr]
      | some rest2 => rw [hr] at h; simp at h

theorem install_scan_countP (tm tag : Nat) (wb : Bool) :
    ∀ (s s2 : List Block), Cache.install_scan tm tag wb s = some s2 →
      ∀ t, s2.countP (fun b => b.valid && b.tag == t) =
        s.countP (fun b => b.valid && b.tag == t) + (if tag == t then 1 else 0) := by
  intro s
  induction s with
  | nil => intro s2 h; simp [Cache.install_scan] at h
  | cons b rest ih =>
    intro s2 h t
    unfold Cache.install_scan at h
    by_cases hb : (!b.valid) = true
    · rw [if_pos hb] at h
      obtain rfl := Option.some.inj h
      simp only [Bool.not_eq_true'] at hb
      simp [List.countP_cons, hb]
    · rw [if_neg hb] at h
      cases hr : Cache.install_scan tm tag wb rest with
      | none => rw [hr] at h; simp at h
      | some rest2 =>
        rw [hr] at h
        obtain rfl := Option.some.inj (by simpa using h)
        simp [List.countP_cons, ih rest2 hr t]
        try (split_ifs <;> omega)

theorem countP_set_le {α : Type} (p : α → Bool) :
    ∀ (l : List α) (j : Nat) (b : α),
      (l.set j b).countP p ≤ l.countP p + (if p b then 1 else 0) := by
  intro l
  induction l with
  | nil => intro j b; simp [List.countP_nil]
  | cons x xs ih =>
    intro j b
    cases j with
    | zero =>
      simp only [List.set_cons_zero, List.countP_cons]
      split_ifs <;> omega
    | succ j =>
      simp only [List.set_cons_succ, List.countP_cons]
      have := ih j b
      split_ifs at * <;> omega

theorem setTagUnique_nil : SetTagUnique [] := by
  intro t
  simp

theorem setTagUnique_replicate (n : Nat) :
    SetTagUnique (List.replicate n Block.mkInit) := by
  intro t
  have h : List.countP (fun b => b.valid && b.tag == t) (List.replicate n Block.mkInit) = 0 := by
    apply List.countP_eq_zero.mpr
    intro b hb
    rw [List.eq_of_mem_replicate hb]
    simp [Block.mkInit]
  omega

theorem getD_blocks_setTagUnique (c : Cache) (hinv : ∀ s ∈ c.blocks, SetTagUnique s)
    (index : Nat) : SetTagUnique (c.blocks.getD index []) := by
  rw [List.getD_eq_getElem?_getD]
  cases hk : c.blocks[index]? with
  | none => exact setTagUnique_nil
  | some s => exact hinv s (List.getElem?_mem hk)

theorem forall_mem_set_blocks {P : List Block → Prop} (l : List (List Block)) (i : Nat)
    (v : List Block) (h : ∀ s ∈ l, P s) (hv : P v) : ∀ s ∈ l.set i v, P s := by
  intro s hs
  rcases List.mem_or_eq_of_mem_set hs with h1 | rfl
  · exact h s h1
  · exact hv

theorem access_preserves_CacheInv (c : Cache) (a : Nat) (w : Bool) (h : CacheInv c) :
    CacheInv (Cache.access c a w).2 := by
  obtain ⟨hcnt, huniq⟩ := h
  have hset : SetTagUnique (c.blocks.getD ((a / c.block_size) % c.num_sets) []) :=
    getD_blocks_setTagUnique c huniq _
  unfold Cache.access
  dsimp only
  cases hh : Cache.hit_scan (c.time + 1) (a / (c.block_size * c.num_sets)) w
      (c.blocks.getD ((a / c.block_size) % c.num_sets) []) with
  | some s2 =>
    dsimp only
    refine ⟨by dsimp only; omega, ?_⟩
    refine forall_mem_set_blocks _ _ _ huniq ?_
    intro t
    rw [hit_scan_countP _ _ _ _ _ hh t]
    exact hset t
  | none =>
    have hzero := hit_scan_none_countP _ _ _ _ hh
    cases hi : Cache.install_scan (c.time + 1) (a / (c.block_size * c.num_sets)) w
        (c.blocks.getD ((a / c.block_size) % c.num_sets) []) with
    | some s2 =>
      dsimp only
      refine ⟨by dsimp only; omega, ?_⟩
      refine forall_mem_set_blocks _ _ _ huniq ?_
      intro t
      rw [install_scan_countP _ _ _ _ _ hi t]
      by_cases ht : (a / (c.block_size * c.num_sets)) = t
      · subst ht
        simp only [beq_self_eq_true, if_true]
        omega
      · have hbt : ((a / (c.block_size * c.num_sets)) == t) = false := by simp [ht]
        rw [hbt]
        simp only [Bool.false_eq_true, if_false]
        have := hset t
        omega
    | none =>
      dsimp only
      refine ⟨by dsimp only; omega, ?_⟩
      refine forall_mem_set_blocks _ _ _ huniq ?_
      intro t
      have hle := countP_set_le (fun b => b.valid && b.tag == t)
        (c.blocks.getD ((a / c.block_size) % c.num_sets) [])
        (Cache.lru_index (c.blocks.getD ((a / c.block_size) % c.num_sets) []))
        { valid := true, tag := a / (c.block_size * c.num_sets),
          last_used_time := c.time + 1, writeback := w }
      simp only [Bool.true_and] at hle
      by_cases ht : (a / (c.block_size * c.num_sets)) = t
      · subst ht
        simp only [beq_self_eq_true] at hle
        rw [if_true] at hle
        omega
      · have hbt : ((a / (c.block_size * c.num_sets)) == t) = false := by simp [ht]
        simp only [hbt] at hle
        rw [show (if (false = true) then (1 : Nat) else 0) = 0 from rfl] at hle
        have := hset t
        omega

/-- The direct-mapped 1 KiB cache of scenario S7. -/
def s7_cache : Cache := (Cache.mk_init 1024 16 1 true).getD s6_fallback

theorem mk_init_CacheInv (size bs assoc : Nat) (wb : Bool) (c : Cache)
    (h : Cache.mk_init size bs assoc wb = some c) : CacheInv c := by
  unfold Cache.mk_init at h
  dsimp only at h
  split_ifs at h
  obtain rfl := Option.some.inj h
  refine ⟨rfl, ?_⟩
  intro s hs
  rw [List.eq_of_mem_replicate hs]
  exact setTagUnique_replicate assoc

theorem foldl_access_CacheInv (seq : List (Nat × Bool)) (c : Cache) (h : CacheInv c) :
    CacheInv (seq.foldl (fun x p => (Cache.access x p.1 p.2).2) c) := by
  induction seq generalizing c with
  | nil => exact h
  | cons p rest ih => exact ih _ (access_preserves_CacheInv c p.1 p.2 h)

/-- C7: for every validly constructed cache and every access sequence,
the counter equation `accesses = hits + misses` holds, and within any set
at most one valid block carries a given tag. -/
theorem cache_counter_equation_and_tag_unique
    (size bs assoc : Nat) (wb : Bool) (c : Cache)
    (hc : Cache.mk_init size bs assoc wb = some c)
    (seq : List (Nat × Bool)) :
    (seq.foldl (fun x p => (Cache.access x p.1 p.2).2) c).total_accesses =
      (seq.foldl (fun x p => (Cache.access x p.1 p.2).2) c).hits +
        (seq.foldl (fun x p => (Cache.access x p.1 p.2).2) c).misses ∧
    ∀ s ∈ (seq.foldl (fun x p => (Cache.access x p.1 p.2).2) c).blocks, ∀ t,
      s.countP (fun b => b.valid && b.tag == t) ≤ 1 :=
  foldl_access_CacheInv seq c (mk_init_CacheInv size bs assoc wb c hc)

/-- C7 witness: a direct-mapped 1 KiB cache after the S7-style trace
(write 0x200, then read 0x200 + 1024) satisfies the counter equation and
tag uniqueness. -/
theorem cache_counter_equation_and_tag_unique_witness :
    (Cache.mk_init 1024 16 1 true).isSome = true ∧
    (([(0x200, true), (0x200 + 1024, false)].foldl
        (fun x p => (Cache.access x p.1 p.2).2) s7_cache).total_accesses =
      ([(0x200, true), (0x200 + 1024, false)].foldl
        (fun x p => (Cache.access x p.1 p.2).2) s7_cache).hits +
        ([(0x200, true), (0x200 + 1024, false)].foldl
          (fun x p => (Cache.access x p.1 p.2).2) s7_cache).misses) :=
  ⟨by decide,
   (cache_counter_equation_and_tag_unique 1024 16 1 true s7_cache (by decide)
      [(0x200, true), (0x200 + 1024, false)]).1⟩

theorem getD_set_cases {α : Type} (l : List α) (j k : Nat) (v d : α) :
    (l.set j v).getD k d = l.getD k d ∨
      ((l.set j v).getD k d = v ∧ j = k ∧ j < l.length) := by
  rw [List.getD_eq_getElem?_getD, List.getD_eq_getElem?_getD, List.getElem?_set]
  split_ifs with h1 h2
  · right
    refine ⟨rfl, h1, h2⟩
  · left
    subst h1
    rw [List.getElem?_eq_none (by omega : l.length ≤ j)]
  · left
    rfl

theorem hit_scan_getD (tm tag : Nat) (wb : Bool) :
    ∀ (s s2 : List Block), Cache.hit_scan tm tag wb s = some s2 →
    ∀ j, s2.getD j Block.mkInit = s.getD j Block.mkInit ∨
      ((s.getD j Block.mkInit).valid = true ∧ (s.getD j Block.mkInit).tag = tag ∧
       s2.getD j Block.mkInit =
         { (s.getD j Block.mkInit) with last_used_time := tm, writeback := if wb then true else (s.getD j Block.mkInit).writeback }) := by
  intro s
  induction s with
  | nil => intro s2 h; simp [Cache.hit_scan] at h
  | cons b rest ih =>
    intro s2 h j
    unfold Cache.hit_scan at h
    by_cases hb : (b.valid && b.tag == tag) = true
    · rw [if_pos hb] at h
      obtain rfl := Option.some.inj h
      cases j with
      | zero =>
        right
        simp only [List.getD_cons_zero]
        obtain ⟨hv, ht⟩ := (Bool.and_eq_true _ _).mp hb
        exact ⟨hv, by simpa using ht, trivial⟩
      | succ j =>
        left
        simp only [List.getD_cons_succ]
    · rw [if_neg hb] at h
      cases hr : Cache.hit_scan tm tag wb rest with
      | none => rw [hr] at h; simp at h
      | some rest2 =>
        rw [hr] at h
        obtain rfl := Option.some.inj (by simpa using h)
        cases j with
        | zero => left; simp only [List.getD_cons_zero]
        | succ j =>
          simp only [List.getD_cons_succ]
          exact ih rest2 hr j

theorem install_scan_getD (tm tag : Nat) (wb : Bool) :
    ∀ (s s2 : List Block), Cache.install_scan tm tag wb s = some s2 →
    ∀ j, s2.getD j Block.mkInit = s.getD j Block.mkInit ∨
      ((s.getD j Block.mkInit).valid = false ∧
       s2.getD j Block.mkInit =
         { (s.getD j Block.mkInit) with valid := true, tag := tag, last_used_time := tm, writeback := if wb then true else (s.getD j Block.mkInit).writeback }) := by
  intro s
  induction s with
  | nil => intro s2 h; simp [Cache.install_scan] at h
  | cons b rest ih =>
    intro s2 h j
    unfold Cache.install_scan at h
    by_cases hb : (!b.valid) = true
    · rw [if_pos hb] at h
      obtain rfl := Option.some.inj h
      cases j with
      | zero =>
        right
        simp only [List.getD_cons_zero]
        exact ⟨by simpa using hb, trivial⟩
      | succ j =>
        left
        simp only [List.getD_cons_succ]
    · rw [if_neg hb] at h
      cases hr : Cache.install_scan tm tag wb rest with
      | none => rw [hr] at h; simp at h
      | some rest2 =>
        rw [hr] at h
        obtain rfl := Option.some.inj (by simpa using h)
        cases j with
        | zero => left; simp only [List.getD_cons_zero]
        | succ j =>
          simp only [List.getD_cons_succ]
          exact ih rest2 hr j

theorem hit_scan_none_getD (tm tag : Nat) (wb : Bool) :
    ∀ (s : List Block), Cache.hit_scan tm tag wb s = none →
    ∀ j, (s.getD j Block.mkInit).valid = true → (s.getD j Block.mkInit).tag ≠ tag := by
  intro s
  induction s with
  | nil =>
    intro h j
    simp [Block.mkInit, List.getD]
  | cons b rest ih =>
    intro h j
    unfold Cache.hit_scan at h
    by_cases hb : (b.valid && b.tag == tag) = true
    · rw [if_pos hb] at h; simp at h
    · rw [if_neg hb] at h
      cases hr : Cache.hit_scan tm tag wb rest with
      | none =>
        cases j with
        | zero =>
          simp only [List.getD_cons_zero]
          intro hv ht
          apply hb
          simp [hv, ht]
        | succ j =>
          simp only [List.getD_cons_succ]
          exact ih hr j
      | some rest2 => rw [hr] at h; simp at h

/-- No invalid block is dirty: blocks only ever become valid, and a fresh
cache starts all-invalid and clean. -/
def DirtyInv (c : Cache) : Prop :=
  ∀ si j, ((c.blocks.getD si []).getD j Block.mkInit).valid = false →
    ((c.blocks.getD si []).getD j Block.mkInit).writeback = false

theorem getD_replicate_cases {α : Type} (n k : Nat) (a d : α) :
    (List.replicate n a).getD k d = a ∨ (List.replicate n a).getD k d = d := by
  rw [List.getD_eq_getElem?_getD, List.getElem?_replicate]
  split_ifs <;> simp

theorem mk_init_DirtyInv (size bs assoc : Nat) (wb : Bool) (c : Cache)
    (h : Cache.mk_init size bs assoc wb = some c) : DirtyInv c := by
  unfold Cache.mk_init at h
  dsimp only at h
  split_ifs at h
  obtain rfl := Option.some.inj h
  intro si j hv
  dsimp only at hv ⊢
  rcases getD_replicate_cases (size / bs / assoc) si
      (List.replicate assoc Block.mkInit) [] with hrow | hrow <;> rw [hrow] at hv ⊢
  · rcases getD_replicate_cases assoc j Block.mkInit Block.mkInit with he | he <;>
      rw [he] at hv ⊢ <;> rfl
  · rfl

theorem install_scan_none_getD (tm tag : Nat) (wb : Bool) :
    ∀ s, Cache.install_scan tm tag wb s = none →
    ∀ j, j < s.length → (s.getD j Block.mkInit).valid = true := by
  intro s
  induction s with
  | nil =>
    intro h j hj
    simp at hj
  | cons b rest ih =>
    intro h j hj
    unfold Cache.install_scan at h
    by_cases hb : (!b.valid) = true
    · rw [if_pos hb] at h
      simp at h
    · rw [if_neg hb] at h
      cases hr : Cache.install_scan tm tag wb rest with
      | none =>
        cases j with
        | zero =>
          simp only [List.getD_cons_zero]
          simpa using hb
        | succ j =>
          simp only [List.getD_cons_succ]
          exact ih hr j (by simpa using hj)
      | some rest2 => rw [hr] at h; simp at h

theorem access_getD_cases (c : Cache) (a : Nat) (w : Bool) (si j : Nat) :
    (((Cache.access c a w).2.blocks.getD si []).getD j Block.mkInit) = ((c.blocks.getD si []).getD j Block.mkInit) ∨
    (((c.blocks.getD si []).getD j Block.mkInit).valid = true ∧ ((c.blocks.getD si []).getD j Block.mkInit).tag = a / (c.block_size * c.num_sets) ∧
      (((Cache.access c a w).2.blocks.getD si []).getD j Block.mkInit) = { ((c.blocks.getD si []).getD j Block.mkInit) with last_used_time := c.time + 1, writeback := if w then true else ((c.blocks.getD si []).getD j Block.mkInit).writeback }) ∨
    (((c.blocks.getD si []).getD j Block.mkInit).valid = false ∧
      (((Cache.access c a w).2.blocks.getD si []).getD j Block.mkInit) = { ((c.blocks.getD si []).getD j Block.mkInit) with valid := true, tag := a / (c.block_size * c.num_sets), last_used_time := c.time + 1, writeback := if w then true else ((c.blocks.getD si []).getD j Block.mkInit).writeback }) ∨
    (((c.blocks.getD si []).getD j Block.mkInit).valid = true ∧ ((c.blocks.getD si []).getD j Block.mkInit).tag ≠ a / (c.block_size * c.num_sets) ∧
      (((Cache.access c a w).2.blocks.getD si []).getD j Block.mkInit) = { valid := true, writeback := w, tag := a / (c.block_size * c.num_sets), last_used_time := c.time + 1 }) := by
  unfold Cache.access
  dsimp only
  cases hh : Cache.hit_scan (c.time + 1) (a / (c.block_size * c.num_sets)) w
      (c.blocks.getD ((a / c.block_size) % c.num_sets) []) with
  | some s2 =>
    dsimp only
    rcases getD_set_cases c.blocks ((a / c.block_size) % c.num_sets) si s2 []
      with hrow | ⟨hrow, hidx, hlen⟩
    · rw [hrow]
      left
      rfl
    · rw [hrow]
      rw [← hidx]
      rcases hit_scan_getD _ _ _ _ _ hh j with hj | ⟨hv, ht, hj⟩
      · rw [hj]
        left
        rfl
      · rw [hj]
        right
        left
        exact ⟨hv, ht, rfl⟩
  | none =>
    cases hi : Cache.install_scan (c.time + 1) (a / (c.block_size * c.num_sets)) w
        (c.blocks.getD ((a / c.block_size) % c.num_sets) []) with
    | some s2 =>
      dsimp only
      rcases getD_set_cases c.blocks ((a / c.block_size) % c.num_sets) si s2 []
        with hrow | ⟨hrow, hidx, hlen⟩
      · rw [hrow]
        left
        rfl
      · rw [hrow]
        rw [← hidx]
        rcases install_scan_getD _ _ _ _ _ hi j with hj | ⟨hv, hj⟩
        · rw [hj]
          left
          rfl
        · rw [hj]
          right
          right
          left
          exact ⟨hv, rfl⟩
    | none =>
      dsimp only
      rcases getD_set_cases c.blocks ((a / c.block_size) % c.num_sets) si
          ((c.blocks.getD ((a / c.block_size) % c.num_sets) []).set
            (Cache.lru_index (c.blocks.getD ((a / c.block_size) % c.num_sets) []))
            { valid := true, writeback := w, tag := a / (c.block_size * c.num_sets), last_used_time := c.time + 1 }) []
        with hrow | ⟨hrow, hidx, hlen⟩
      · rw [hrow]
        left
        rfl
      · rw [hrow]
        rw [← hidx]
        rcases getD_set_cases (c.blocks.getD ((a / c.block_size) % c.num_sets) [])
            (Cache.lru_index (c.blocks.getD ((a / c.block_size) % c.num_sets) [])) j
            { valid := true, writeback := w, tag := a / (c.block_size * c.num_sets), last_used_time := c.time + 1 }
            Block.mkInit
          with hcol | ⟨hcol, hjeq, hjlen⟩
        · rw [hcol]
          left
          rfl
        · rw [hcol]
          right
          right
          right
          have hval : ((c.blocks.getD ((a / c.block_size) % c.num_sets) []).getD j
              Block.mkInit).valid = true :=
            install_scan_none_getD _ _ _ _ hi j (hjeq ▸ hjlen)
          refine ⟨hval, ?_, rfl⟩
          exact hit_scan_none_getD _ _ _ _ hh j hval

theorem access_DirtyInv (c : Cache) (a : Nat) (w : Bool) (h : DirtyInv c) :
    DirtyInv (Cache.access c a w).2 := by
  intro si j hv
  rcases access_getD_cases c a w si j with h1 | ⟨hval, _, h1⟩ | ⟨hinv, h1⟩ | ⟨hval, _, h1⟩ <;>
    rw [h1] at hv ⊢
  · exact h si j hv
  · dsimp only at hv
    rw [hval] at hv
    exact absurd hv (by simp)
  · dsimp only at hv
    exact absurd hv (by simp)
  · dsimp only at hv
    exact absurd hv (by simp)

theorem access_dirty_clauses (c : Cache) (a : Nat) (w : Bool) (h : DirtyInv c) (si j : Nat) :
    (((c.blocks.getD si []).getD j Block.mkInit).valid = true → (((Cache.access c a w).2.blocks.getD si []).getD j Block.mkInit).valid = true → (((Cache.access c a w).2.blocks.getD si []).getD j Block.mkInit).tag = ((c.blocks.getD si []).getD j Block.mkInit).tag →
      ((c.blocks.getD si []).getD j Block.mkInit).writeback = true → (((Cache.access c a w).2.blocks.getD si []).getD j Block.mkInit).writeback = true) ∧
    ((((Cache.access c a w).2.blocks.getD si []).getD j Block.mkInit).valid = true → ¬(((c.blocks.getD si []).getD j Block.mkInit).valid = true ∧ ((c.blocks.getD si []).getD j Block.mkInit).tag = (((Cache.access c a w).2.blocks.getD si []).getD j Block.mkInit).tag) →
      (((Cache.access c a w).2.blocks.getD si []).getD j Block.mkInit).writeback = w) := by
  rcases access_getD_cases c a w si j with h1 | ⟨hval, htag, h1⟩ | ⟨hinv, h1⟩ | ⟨hval, htag, h1⟩ <;>
    rw [h1]
  · constructor
    · intro _ _ _ hwb
      exact hwb
    · intro hnv hcon
      exact absurd ⟨hnv, rfl⟩ hcon
  · constructor
    · intro _ _ _ hwb
      dsimp only
      rw [hwb]
      cases w <;> rfl
    · intro hnv hcon
      dsimp only at hnv
      exact absurd ⟨hnv, htag ▸ rfl⟩ hcon
  · constructor
    · intro hov _ _ _
      rw [hinv] at hov
      exact absurd hov (by simp)
    · intro _ _
      dsimp only
      rw [h si j hinv]
      cases w <;> rfl
  · constructor
    · intro _ _ htg _
      dsimp only at htg
      exact absurd htg.symm htag
    · intro _ _
      rfl

/-- C10: in a freshly constructed cache no invalid block is dirty, this is
preserved by every access, and under it: (monotonicity) a block that stays
resident with its tag across an access never has its dirty bit cleared —
read hits and write hits only ever set it — and (install) a block freshly
installed or re-installed by eviction carries dirty = the write intent of
the installing access. -/
theorem dirty_bit_monotone_until_eviction :
    (∀ size bs assoc wb c, Cache.mk_init size bs assoc wb = some c → DirtyInv c) ∧
    (∀ c a w, DirtyInv c → DirtyInv (Cache.access c a w).2) ∧
    (∀ (c : Cache) (a : Nat) (w : Bool), DirtyInv c → ∀ si j,
      (((c.blocks.getD si []).getD j Block.mkInit).valid = true → (((Cache.access c a w).2.blocks.getD si []).getD j Block.mkInit).valid = true → (((Cache.access c a w).2.blocks.getD si []).getD j Block.mkInit).tag = ((c.blocks.getD si []).getD j Block.mkInit).tag →
        ((c.blocks.getD si []).getD j Block.mkInit).writeback = true → (((Cache.access c a w).2.blocks.getD si []).getD j Block.mkInit).writeback = true) ∧
      ((((Cache.access c a w).2.blocks.getD si []).getD j Block.mkInit).valid = true → ¬(((c.blocks.getD si []).getD j Block.mkInit).valid = true ∧ ((c.blocks.getD si []).getD j Block.mkInit).tag = (((Cache.access c a w).2.blocks.getD si []).getD j Block.mkInit).tag) →
        (((Cache.access c a w).2.blocks.getD si []).getD j Block.mkInit).writeback = w)) :=
  ⟨mk_init_DirtyInv,
   access_DirtyInv,
   fun c a w h si j => access_dirty_clauses c a w h si j⟩

/-- C10 witness: the clause pair applied to the S7 direct-mapped cache at
the set holding address 0x200, with the fresh-cache dirty invariant
discharged through the first conjunct. -/
theorem dirty_bit_monotone_until_eviction_witness :
    (((s7_cache.blocks.getD 32 []).getD 0 Block.mkInit).valid = true → (((Cache.access s7_cache 0x200 true).2.blocks.getD 32 []).getD 0 Block.mkInit).valid = true → (((Cache.access s7_cache 0x200 true).2.blocks.getD 32 []).getD 0 Block.mkInit).tag = ((s7_cache.blocks.getD 32 []).getD 0 Block.mkInit).tag →
      ((s7_cache.blocks.getD 32 []).getD 0 Block.mkInit).writeback = true → (((Cache.access s7_cache 0x200 true).2.blocks.getD 32 []).getD 0 Block.mkInit).writeback = true) ∧
    ((((Cache.access s7_cache 0x200 true).2.blocks.getD 32 []).getD 0 Block.mkInit).valid = true → ¬(((s7_cache.blocks.getD 32 []).getD 0 Block.mkInit).valid = true ∧ ((s7_cache.blocks.getD 32 []).getD 0 Block.mkInit).tag = (((Cache.access s7_cache 0x200 true).2.blocks.getD 32 []).getD 0 Block.mkInit).tag) →
      (((Cache.access s7_cache 0x200 true).2.blocks.getD 32 []).getD 0 Block.mkInit).writeback = true) :=
  dirty_bit_monotone_until_eviction.2.2 s7_cache 0x200 true
    (dirty_bit_monotone_until_eviction.1 1024 16 1 true s7_cache (by decide)) 32 0
